import Mathlib

/-!
Shallow embedding of the ultrasonic sound projector firmware
(`soundprojector.ino`): the modulation callback `modulate`, the trigger
debouncer `checkTrigger` and the playback starter `startPlayback`, with
theorems about playback traces, source priority, debouncing and the
sine test tone.

Modelling conventions:
* the SPIFFS `File` handle is an `Option (List ℤ)` holding the bytes not
  yet read; `none` is an invalid or closed handle (for which the C++
  `if (audioFile)` test is false);
* `millis()` is a `ℕ` timestamp, one value per `checkTrigger` poll;
* C `float`/`double` arithmetic is modelled exactly over `ℚ` and `ℝ`
  (`sin` over `ℝ`); the C cast `(int)x` is truncation toward zero;
* `analogRead` is a `ℕ` parameter (0–4095 on the 12-bit ADC).
-/

namespace SoundProjector

/-- The compile-time fallback source selected by the preprocessor options
`TEST_MODE_DC`, `TEST_MODE_SINE`, `ENABLE_LIVE_INPUT`, or none of them
(playback-only silence). -/
inductive FallbackMode
  | dc
  | sine
  | live
  | silence
  deriving DecidableEq

/-- The global mutable state of the sketch: `isPlaying`, the `audioFile`
handle, the sine phase accumulator and the three trigger-debounce
globals. -/
structure SysState where
  isPlaying : Bool
  audioFile : Option (List ℤ)
  sinePhase : ℕ
  lastTriggerTime : ℕ
  lastTriggerState : Bool
  triggerState : Bool
  deriving DecidableEq

/-- Observable side effects of one `modulate` invocation: whether
`audioFile.read()` was called, whether `audioFile.close()` was called,
and whether `Serial.println` was called. The close event doubles as the
end-of-stream (Done) signal. -/
structure ModEvents where
  didRead : Bool
  didClose : Bool
  didPrint : Bool
  deriving DecidableEq

/-- The SPIFFS environment seen by `startPlayback`: whether
`/audio.raw` passes `SPIFFS.exists`, whether `SPIFFS.open` yields a
valid handle, and the file contents. -/
structure Env where
  fileExists : Bool
  openOk : Bool
  contents : List ℤ
  deriving DecidableEq

/-- Outcome of `startPlayback`, as logged on the serial channel:
a successful start with the file size and the computed duration in
seconds, or one of the two failure messages. -/
inductive StartResult
  | started : ℕ → ℚ → StartResult
  | openFailed
  | notFound
  deriving DecidableEq

/-- True on the `started` outcome of `startPlayback`. -/
def StartResult.isStarted : StartResult → Bool
  | .started _ _ => true
  | _ => false

/-- `const unsigned long debounceDelay = 50`. -/
def debounceDelay : ℕ := 50

/-- `const int sineTableSize = 100`. -/
def sineTableSize : ℕ := 100

/-- `const float testFreq = 1000.0`. -/
def testFreq : ℚ := 1000

/-- `const float phaseIncrement = (testFreq * sineTableSize) / 40000.0`
(exactly 2.5, representable in `float`). -/
def phaseIncrement : ℚ := (testFreq * (sineTableSize : ℚ)) / 40000

/-- The C cast `(int)x`: truncation toward zero. -/
noncomputable def truncToward0 (x : ℝ) : ℤ :=
  if 0 ≤ x then ⌊x⌋ else -⌊-x⌋

/-- The sample emitted by the `TEST_MODE_SINE` branch at phase `p`:
`audio = 127 + (int)(127.0 * sin((p * 2.0 * PI) / sineTableSize))`. -/
noncomputable def sineSample (p : ℕ) : ℤ :=
  127 + truncToward0 (127 * Real.sin ((p : ℝ) * (2 * Real.pi) / (sineTableSize : ℝ)))

/-- The phase update of the `TEST_MODE_SINE` branch:
`sinePhase += (int)phaseIncrement; if (sinePhase >= sineTableSize) sinePhase -= sineTableSize`. -/
def stepPhase (p : ℕ) : ℕ :=
  let p' := p + (⌊phaseIncrement⌋).toNat
  if sineTableSize ≤ p' then p' - sineTableSize else p'

/-- The timer callback `modulate()`. The first match arm is the C++
`if (isPlaying && audioFile)` file-playback branch (read one byte, or on
exhaustion close the file, clear `isPlaying`, print the finished message
and emit silence); otherwise the compile-time fallback branch runs.
Returns the new state, the value passed to `ledcWrite(PWM_PIN, audio)`,
and the observable events. -/
noncomputable def modulate (mode : FallbackMode) (adc : ℕ) (s : SysState) :
    SysState × ℤ × ModEvents :=
  match s.isPlaying, s.audioFile with
  | true, some bs =>
    match bs with
    | b :: rest => ({ s with audioFile := some rest }, b, ⟨true, false, false⟩)
    | [] => ({ s with audioFile := none, isPlaying := false }, 0, ⟨false, true, true⟩)
  | _, _ =>
    match mode with
    | .dc => (s, 127, ⟨false, false, false⟩)
    | .sine => ({ s with sinePhase := stepPhase s.sinePhase },
                sineSample s.sinePhase, ⟨false, false, false⟩)
    | .live => (s, ((adc / 4 : ℕ) : ℤ), ⟨false, false, false⟩)
    | .silence => (s, 0, ⟨false, false, false⟩)

/-- `startPlayback()`: if `SPIFFS.exists(audioFilePath)` the handle is
assigned from `SPIFFS.open` (invalid, i.e. `none`, when opening fails);
a valid handle sets `isPlaying` and logs the size and the duration
`fileSize / 40000.0`; otherwise the failure is logged. -/
def startPlayback (env : Env) (s : SysState) : SysState × StartResult :=
  if env.fileExists then
    let f : Option (List ℤ) := if env.openOk then some env.contents else none
    let s1 := { s with audioFile := f }
    match f with
    | some bs => ({ s1 with isPlaying := true },
                  .started bs.length ((bs.length : ℚ) / 40000))
    | none => (s1, .openFailed)
  else
    (s, .notFound)

/-- One poll of `checkTrigger()` at time `now` with debounce-inverted
raw reading `reading` (`!digitalRead(TRIGGER_PIN)`): a raw change resets
`lastTriggerTime`; after the debounce window a differing reading becomes
the confirmed `triggerState`, and a confirmed rising edge while not
playing calls `startPlayback`. -/
def checkTrigger (env : Env) (now : ℕ) (reading : Bool) (s : SysState) : SysState :=
  let s1 := if reading ≠ s.lastTriggerState then { s with lastTriggerTime := now } else s
  let s2 :=
    if debounceDelay < now - s1.lastTriggerTime then
      if reading ≠ s1.triggerState then
        let s3 := { s1 with triggerState := reading }
        if reading = true ∧ s3.isPlaying = false then (startPlayback env s3).1 else s3
      else s1
    else s1
  { s2 with lastTriggerState := reading }

/-- Run `checkTrigger` over a list of `(millis, reading)` polls,
returning the final state and the number of confirmed-level
(`triggerState`) transitions along the way. -/
def runCount (env : Env) : SysState → List (ℕ × Bool) → SysState × ℕ
  | s, [] => (s, 0)
  | s, p :: ps =>
    let s' := checkTrigger env p.1 p.2 s
    let r := runCount env s' ps
    (r.1, (if s'.triggerState ≠ s.triggerState then 1 else 0) + r.2)

/-- State after `n` invocations of `modulate` starting from a freshly
started playback session over bytes `B`. -/
noncomputable def playRun (mode : FallbackMode) (adc : ℕ) (B : List ℤ) (n : ℕ) : SysState :=
  (fun s => (modulate mode adc s).1)^[n]
    ⟨true, some B, 0, 0, false, false⟩

/-- PWM value written by invocation `n` of that playback run. -/
noncomputable def playOut (mode : FallbackMode) (adc : ℕ) (B : List ℤ) (n : ℕ) : ℤ :=
  (modulate mode adc (playRun mode adc B n)).2.1

/-- Events of invocation `n` of that playback run. -/
noncomputable def playEv (mode : FallbackMode) (adc : ℕ) (B : List ℤ) (n : ℕ) : ModEvents :=
  (modulate mode adc (playRun mode adc B n)).2.2

/-- State after `n` invocations of `modulate` in `TEST_MODE_SINE` with
no session active, starting from the initial state (`sinePhase = 0`). -/
noncomputable def sineRun (n : ℕ) : SysState :=
  (fun s => (modulate .sine 0 s).1)^[n] ⟨false, none, 0, 0, false, false⟩

/-- PWM value written by invocation `n` of the sine test run. -/
noncomputable def sineOut (n : ℕ) : ℤ :=
  (modulate .sine 0 (sineRun n)).2.1

/-! ### Helper lemmas -/

theorem truncToward0_zero : truncToward0 0 = 0 := by
  simp [truncToward0]

theorem phaseIncrement_eq : phaseIncrement = 5 / 2 := by
  norm_num [phaseIncrement, testFreq, sineTableSize]

theorem phaseIncrement_floor : ⌊phaseIncrement⌋ = 2 := by
  rw [phaseIncrement_eq]
  rw [Int.floor_eq_iff]
  norm_num

theorem stepPhase_eq (p : ℕ) (h : p < 100) : stepPhase p = (p + 2) % 100 := by
  have h2 : (⌊phaseIncrement⌋).toNat = 2 := by rw [phaseIncrement_floor]; rfl
  simp only [stepPhase, h2, sineTableSize]
  split <;> omega

theorem sineSample_zero : sineSample 0 = 127 := by
  simp [sineSample, truncToward0_zero]

theorem stepPhase_lt (p : ℕ) (h : p < 100) : stepPhase p < 100 := by
  rw [stepPhase_eq p h]
  exact Nat.mod_lt _ (by norm_num)

theorem sineRun_eq (n : ℕ) : sineRun n = ⟨false, none, 2 * n % 100, 0, false, false⟩ := by
  induction n with
  | zero => rfl
  | succ n ih =>
    rw [sineRun, Function.iterate_succ_apply', ← sineRun, ih]
    show (⟨false, none, stepPhase (2 * n % 100), 0, false, false⟩ : SysState) = _
    rw [stepPhase_eq _ (Nat.mod_lt _ (by norm_num))]
    have : (2 * n % 100 + 2) % 100 = 2 * (n + 1) % 100 := by omega
    rw [this]

/-! ### C10: the sine phase accumulator stays within the table bounds -/

/-- **C10**: before and after every invocation of `modulate`, in any mode
and any playback state, the sine phase accumulator satisfies
`sinePhase < sineTableSize` (the lower bound `0 ≤ sinePhase` is inherent
to the unsigned type): the truncated increment 2 is smaller than the
table size, so the single conditional subtraction restores the bound. -/
theorem sinePhase_invariant (mode : FallbackMode) (adc : ℕ) (s : SysState)
    (h : s.sinePhase < sineTableSize) :
    (modulate mode adc s).1.sinePhase < sineTableSize := by
  rcases s with ⟨p, f, ph, t1, t2, t3⟩
  simp only [sineTableSize] at h ⊢
  cases p <;> rcases f with _ | (_ | ⟨b, rest⟩) <;> cases mode <;>
    simp only [modulate] <;>
    first
      | exact h
      | exact stepPhase_lt ph h

/-- Witness for `sinePhase_invariant` at the initial state in sine mode. -/
theorem sinePhase_invariant_witness :
    (modulate .sine 0 ⟨false, none, 0, 0, false, false⟩).1.sinePhase < sineTableSize :=
  sinePhase_invariant .sine 0 ⟨false, none, 0, 0, false, false⟩ (by decide)

/-! ### C5: the sine test-tone sample formula and phase step -/

/-- **C5** counterexample: at phase 0 with no session active, the sine
branch of `modulate` emits 127, not the claimed
`128 + round(127 * sin(2*pi*0/100)) = 128`. -/
theorem sine_claimed_formula_ce :
    (modulate .sine 0 ⟨false, none, 0, 0, false, false⟩).2.1 ≠
      128 + round ((127 : ℝ) * Real.sin (2 * Real.pi * (0 : ℝ) / 100)) := by
  have h1 : (modulate .sine 0 ⟨false, none, 0, 0, false, false⟩).2.1 = 127 := by
    show sineSample 0 = 127
    exact sineSample_zero
  rw [h1, mul_zero, zero_div, Real.sin_zero, mul_zero, round_zero]
  decide

/-- **C5** (amended): in sine test mode with no session active and phase
`p` in bounds, `modulate` emits `127 + trunc(127 * sin(2*pi*p/100))`
(truncation toward zero, not `128 + round`), and advances the phase by
the integer truncation of `phaseIncrement = 2.5`, i.e. by 2 per call,
wrapping modulo the table size. -/
theorem sine_branch_trunc_and_step (adc : ℕ) (s : SysState)
    (hP : s.isPlaying = false) (hlt : s.sinePhase < sineTableSize) :
    (modulate .sine adc s).2.1 =
      127 + truncToward0 (127 * Real.sin ((s.sinePhase : ℝ) * (2 * Real.pi) / 100)) ∧
    (modulate .sine adc s).1.sinePhase = (s.sinePhase + 2) % 100 ∧
    phaseIncrement = 5 / 2 ∧ (⌊phaseIncrement⌋).toNat = 2 := by
  rcases s with ⟨p, f, ph, t1, t2, t3⟩
  cases hP
  simp only [sineTableSize] at hlt
  refine ⟨?_, ?_, phaseIncrement_eq, by rw [phaseIncrement_floor]; rfl⟩
  · show sineSample ph = _
    simp [sineSample, sineTableSize]
  · show stepPhase ph = _
    exact stepPhase_eq ph hlt

/-- Witness for `sine_branch_trunc_and_step` at phase 7. -/
theorem sine_branch_witness :
    (modulate .sine 0 ⟨false, none, 7, 0, false, false⟩).2.1 =
      127 + truncToward0 (127 * Real.sin (((7 : ℕ) : ℝ) * (2 * Real.pi) / 100)) ∧
    (modulate .sine 0 ⟨false, none, 7, 0, false, false⟩).1.sinePhase = (7 + 2) % 100 ∧
    phaseIncrement = 5 / 2 ∧ (⌊phaseIncrement⌋).toNat = 2 :=
  sine_branch_trunc_and_step 0 ⟨false, none, 7, 0, false, false⟩ rfl (by decide)

/-! ### C6: periodicity of the sine test trace -/

/-- **C6** counterexample: sample 0 of the sine test run is 127, not the
claimed `128 + round(127 * sin(2*pi*(0*2.5)/100)) = 128`. -/
theorem sine_trace_claimed_ce :
    sineOut 0 ≠ 128 + round ((127 : ℝ) * Real.sin (2 * Real.pi * ((0 : ℝ) * (5 / 2)) / 100)) := by
  have h0 : sineOut 0 = 127 := by
    show sineSample 0 = 127
    exact sineSample_zero
  rw [h0, zero_mul, mul_zero, zero_div, Real.sin_zero, mul_zero, round_zero]
  decide

/-- **C6** (amended): with the actual integer phase increment
`(int)2.5 = 2`, the sine test trace is periodic with period
`sineTableSize / gcd(2, sineTableSize) = 50` samples, and sample `i`
equals `127 + trunc(127 * sin(2*pi*(2*i mod 100)/100))`. -/
theorem sine_trace_period_formula (i : ℕ) :
    sineOut (i + 50) = sineOut i ∧
    sineOut i =
      127 + truncToward0 (127 * Real.sin (((2 * i % 100 : ℕ) : ℝ) * (2 * Real.pi) / 100)) ∧
    sineTableSize / Nat.gcd (⌊phaseIncrement⌋).toNat sineTableSize = 50 := by
  have key : ∀ n, sineOut n = sineSample (2 * n % 100) := by
    intro n
    rw [sineOut, sineRun_eq]
    rfl
  refine ⟨?_, ?_, by rw [phaseIncrement_floor]; rfl⟩
  · rw [key, key]
    congr 1
    omega
  · rw [key]
    simp [sineSample, sineTableSize]

/-! ### Playback-trace helper lemmas -/

theorem modulate_not_playing (mode : FallbackMode) (adc : ℕ) (s : SysState)
    (h : s.isPlaying = false) :
    (modulate mode adc s).1.isPlaying = false ∧
    (modulate mode adc s).1.audioFile = s.audioFile ∧
    (modulate mode adc s).2.2 = ⟨false, false, false⟩ := by
  rcases s with ⟨p, f, ph, a, b, c⟩
  cases h
  cases mode <;> simp [modulate]

theorem playRun_eq_drop (mode : FallbackMode) (adc : ℕ) (B : List ℤ) :
    ∀ n, n ≤ B.length → playRun mode adc B n = ⟨true, some (B.drop n), 0, 0, false, false⟩ := by
  intro n
  induction n with
  | zero => intro _; rfl
  | succ n ih =>
    intro h
    rw [playRun, Function.iterate_succ_apply', ← playRun, ih (by omega)]
    rw [List.drop_eq_getElem_cons (by omega : n < B.length)]
    rfl

theorem playRun_past (mode : FallbackMode) (adc : ℕ) (B : List ℤ) :
    ∀ j, B.length < j →
      (playRun mode adc B j).isPlaying = false ∧ (playRun mode adc B j).audioFile = none := by
  intro j
  induction j with
  | zero => omega
  | succ j ih =>
    intro h
    rw [playRun, Function.iterate_succ_apply', ← playRun]
    rcases Nat.lt_or_ge B.length j with hj | hj
    · obtain ⟨h1, h2⟩ := ih hj
      have hm := modulate_not_playing mode adc (playRun mode adc B j) h1
      exact ⟨hm.1, h2 ▸ hm.2.1⟩
    · have hj' : j = B.length := by omega
      subst hj'
      rw [playRun_eq_drop mode adc B B.length le_rfl, List.drop_length]
      exact ⟨rfl, rfl⟩

/-! ### C1: the file-playback trace of the modulation callback -/

/-- **C1**: starting from a freshly opened session over bytes `B`, the
first `B.length` invocations of `modulate` each read one byte and emit
`B`'s bytes in order with no close and no print; invocation `B.length`
closes the file, clears `isPlaying`, emits the silence byte 0 and
signals Done (close + finished print) exactly once; every later
invocation performs no read, no close and no print. -/
theorem playback_trace_spec (mode : FallbackMode) (adc : ℕ) (B : List ℤ) :
    (∀ i (h : i < B.length),
      playOut mode adc B i = B.get ⟨i, h⟩ ∧ playEv mode adc B i = ⟨true, false, false⟩) ∧
    (playOut mode adc B B.length = 0 ∧ playEv mode adc B B.length = ⟨false, true, true⟩ ∧
      (playRun mode adc B (B.length + 1)).isPlaying = false ∧
      (playRun mode adc B (B.length + 1)).audioFile = none) ∧
    (∀ j, B.length < j → playEv mode adc B j = ⟨false, false, false⟩) := by
  refine ⟨?_, ?_, ?_⟩
  · intro i h
    have hr := playRun_eq_drop mode adc B i h.le
    have hd : B.drop i = B.get ⟨i, h⟩ :: B.drop (i + 1) := by
      rw [List.get_eq_getElem]
      exact List.drop_eq_getElem_cons h
    constructor
    · rw [playOut, hr, hd]
      rfl
    · rw [playEv, hr, hd]
      rfl
  · have hr := playRun_eq_drop mode adc B B.length le_rfl
    refine ⟨?_, ?_, (playRun_past mode adc B _ (by omega)).1,
            (playRun_past mode adc B _ (by omega)).2⟩
    · rw [playOut, hr, List.drop_length]
      rfl
    · rw [playEv, hr, List.drop_length]
      rfl
  · intro j hj
    exact (modulate_not_playing mode adc _ (playRun_past mode adc B j hj).1).2.2

/-- Witness for `playback_trace_spec` on the spec's 3-byte scenario
`[10, 200, 0]`. -/
theorem playback_trace_witness :
    playOut .silence 0 [10, 200, 0] 1 = 200 ∧
    playOut .silence 0 [10, 200, 0] 3 = 0 ∧
    playEv .silence 0 [10, 200, 0] 3 = ⟨false, true, true⟩ ∧
    playEv .silence 0 [10, 200, 0] 5 = ⟨false, false, false⟩ := by
  obtain ⟨h1, h2, h3⟩ := playback_trace_spec .silence 0 [10, 200, 0]
  exact ⟨(h1 1 (by decide)).1, h2.1, h2.2.1, h3 5 (by decide)⟩

/-! ### C2: file playback preempts every fallback source -/

/-- **C2**: while a session is active (`isPlaying` set and a valid
handle), the result of `modulate` is independent of the compile-time
fallback mode and of the ADC reading, and with bytes remaining the
emitted PWM value is the next file byte; when no session is active the
file is never read, closed or reported on (the fallback branch performs
no file operation). -/
theorem file_priority (mode mode' : FallbackMode) (adc adc' : ℕ) (s : SysState)
    (hP : s.isPlaying = true) (hF : s.audioFile.isSome = true) :
    modulate mode adc s = modulate mode' adc' s ∧
    (∀ b rest, s.audioFile = some (b :: rest) → (modulate mode adc s).2.1 = b) ∧
    (∀ (s' : SysState), s'.isPlaying = false →
      (modulate mode adc s').2.2 = ⟨false, false, false⟩) := by
  obtain ⟨bs, hbs⟩ := Option.isSome_iff_exists.mp hF
  rcases s with ⟨p, f, ph, a, b0, c⟩
  cases hP
  cases hbs
  refine ⟨?_, ?_, ?_⟩
  · cases bs <;> rfl
  · intro b rest hbr
    rw [Option.some_inj] at hbr
    subst hbr
    rfl
  · intro s' h'
    exact (modulate_not_playing mode adc s' h').2.2

/-- Witness for `file_priority`: a session over `[5]` emits 5 under both
sine-test and DC-test configurations. -/
theorem file_priority_witness :
    modulate .sine 3 ⟨true, some [5], 0, 0, false, false⟩ =
      modulate .dc 9 ⟨true, some [5], 0, 0, false, false⟩ ∧
    (modulate .sine 3 ⟨true, some [5], 0, 0, false, false⟩).2.1 = 5 :=
  ⟨(file_priority .sine .dc 3 9 ⟨true, some [5], 0, 0, false, false⟩ rfl rfl).1,
   (file_priority .sine .dc 3 9 ⟨true, some [5], 0, 0, false, false⟩ rfl rfl).2.1 5 [] rfl⟩

/-! ### C9: diagnostic output from the timer callback -/

/-- **C9** counterexample: the invocation of `modulate` that detects
end-of-stream calls `Serial.println` directly from the timer callback,
so the callback does emit diagnostic output. -/
theorem modulate_prints_at_eof :
    (modulate .silence 0 ⟨true, some [], 0, 0, false, false⟩).2.2.didPrint = true := rfl

/-- **C9** (amended): `modulate` emits diagnostic output in exactly one
situation, the invocation that detects end-of-stream (session active,
file exhausted), where the finished message is printed directly; there
is no deferred finished flag polled by the main loop, and no other
invocation prints. -/
theorem modulate_print_iff (mode : FallbackMode) (adc : ℕ) (s : SysState) :
    (modulate mode adc s).2.2.didPrint = true ↔
      s.isPlaying = true ∧ s.audioFile = some [] := by
  rcases s with ⟨p, f, ph, a, b, c⟩
  cases p <;> rcases f with _ | (_ | ⟨x, xs⟩) <;> cases mode <;> simp [modulate]

/-! ### C3: retrigger while a session is active -/

/-- **C3** counterexample: `startPlayback` itself performs no
active-session check, so calling it while a session is active reopens
the resource and rewinds the stream — the playback state changes. -/
theorem startPlayback_active_not_noop :
    (startPlayback ⟨true, true, [1, 2, 3]⟩ ⟨true, some [5], 0, 0, false, false⟩).1 ≠
      ⟨true, some [5], 0, 0, false, false⟩ := by
  decide

/-- **C3** (amended): there is a single session slot, and the trigger
path guards the start: while a session is active, a `checkTrigger` poll
— in particular one confirming a rising edge — never invokes
`startPlayback`, so the playback state (`isPlaying`, `audioFile`,
`sinePhase`) is unchanged and the resource is not reopened; the trigger
path never ends a session, and `modulate` clears `isPlaying` only on
end-of-stream. `startPlayback` itself is unguarded, but the program only
reaches it with `isPlaying` false. -/
theorem trigger_noop_when_active (env : Env) (now : ℕ) (reading : Bool) (s : SysState)
    (h : s.isPlaying = true) :
    ((checkTrigger env now reading s).isPlaying = true ∧
     (checkTrigger env now reading s).audioFile = s.audioFile ∧
     (checkTrigger env now reading s).sinePhase = s.sinePhase) ∧
    (∀ (mode : FallbackMode) (adc : ℕ) (s' : SysState), s'.isPlaying = true →
      (modulate mode adc s').1.isPlaying = false → s'.audioFile = some []) := by
  constructor
  · rcases s with ⟨p, f, ph, a, b, c⟩
    cases h
    simp only [checkTrigger]
    split <;> split <;>
      first
        | exact ⟨rfl, rfl, rfl⟩
        | (split <;> simp_all)
  · intro mode adc s' h1 h2
    rcases s' with ⟨p, f, ph, a, b, c⟩
    cases h1
    rcases f with _ | (_ | ⟨x, xs⟩) <;> first | rfl | (cases mode <;> simp_all [modulate])

/-- Witness for `trigger_noop_when_active`: a rising-edge-confirming
poll while a session over `[7]` is active leaves playback untouched. -/
theorem trigger_noop_witness :
    ((checkTrigger ⟨true, true, [1, 2]⟩ 100 true ⟨true, some [7], 3, 0, true, false⟩).isPlaying = true ∧
     (checkTrigger ⟨true, true, [1, 2]⟩ 100 true ⟨true, some [7], 3, 0, true, false⟩).audioFile = some [7] ∧
     (checkTrigger ⟨true, true, [1, 2]⟩ 100 true ⟨true, some [7], 3, 0, true, false⟩).sinePhase = 3) ∧
    (∀ (mode : FallbackMode) (adc : ℕ) (s' : SysState), s'.isPlaying = true →
      (modulate mode adc s').1.isPlaying = false → s'.audioFile = some []) :=
  trigger_noop_when_active ⟨true, true, [1, 2]⟩ 100 true ⟨true, some [7], 3, 0, true, false⟩ rfl

/-! ### C7: start outcomes -/

/-- **C7**: from an idle state, `startPlayback` on a missing or
unopenable resource fails, leaves the whole state unchanged (the active
flag stays false) and leaves the behaviour of `modulate` unaffected;
on success it marks the session active and logs a duration equal to the
byte length divided by the 40000 Hz carrier rate. -/
theorem start_result_spec (env : Env) (mode : FallbackMode) (adc : ℕ) (s : SysState)
    (hP : s.isPlaying = false) (hF : s.audioFile = none) :
    ((env.fileExists = false ∨ env.openOk = false) →
      (startPlayback env s).1 = s ∧ (startPlayback env s).2.isStarted = false ∧
      modulate mode adc (startPlayback env s).1 = modulate mode adc s) ∧
    (env.fileExists = true → env.openOk = true →
      (startPlayback env s).1.isPlaying = true ∧
      (startPlayback env s).2 =
        .started env.contents.length ((env.contents.length : ℚ) / 40000)) := by
  rcases env with ⟨he, ho, bs⟩
  rcases s with ⟨p, f, ph, a, b, c⟩
  cases hP
  cases hF
  constructor
  · rintro (h | h)
    · cases h
      cases ho <;> simp_all [startPlayback, StartResult.isStarted]
    · cases h
      cases he <;> simp_all [startPlayback, StartResult.isStarted]
  · rintro rfl rfl
    simp [startPlayback]

/-- Witness for `start_result_spec`: a missing file fails and changes
nothing; an existing two-byte file starts with duration `2 / 40000` s. -/
theorem start_result_witness :
    (startPlayback ⟨false, true, [1]⟩ ⟨false, none, 0, 0, false, false⟩).1 =
      ⟨false, none, 0, 0, false, false⟩ ∧
    (startPlayback ⟨false, true, [1]⟩ ⟨false, none, 0, 0, false, false⟩).2.isStarted = false ∧
    (startPlayback ⟨true, true, [4, 5]⟩ ⟨false, none, 0, 0, false, false⟩).1.isPlaying = true ∧
    (startPlayback ⟨true, true, [4, 5]⟩ ⟨false, none, 0, 0, false, false⟩).2 =
      .started 2 ((2 : ℚ) / 40000) := by
  obtain ⟨hf, -⟩ :=
    start_result_spec ⟨false, true, [1]⟩ .silence 0 ⟨false, none, 0, 0, false, false⟩ rfl rfl
  obtain ⟨-, hs⟩ :=
    start_result_spec ⟨true, true, [4, 5]⟩ .silence 0 ⟨false, none, 0, 0, false, false⟩ rfl rfl
  obtain ⟨h1, h2, -⟩ := hf (Or.inl rfl)
  obtain ⟨h3, h4⟩ := hs rfl rfl
  exact ⟨h1, h2, h3, h4⟩

/-! ### C8: the live-input scaling bug -/

/-- **C8**: the live-input branch computes `analogRead(AUDIO_PIN) / 4`,
which maps the 12-bit reading 4095 to 1023, outside the 8-bit PWM range
0–255 that the code's own comment (`Scale 0-4095 to 0-255`) intends;
scaling into 8 bits would require dividing by 16. -/
theorem live_input_exceeds_byte_range :
    (modulate .live 4095 ⟨false, none, 0, 0, false, false⟩).2.1 = 1023 ∧
    ¬ (modulate .live 4095 ⟨false, none, 0, 0, false, false⟩).2.1 ≤ 255 := by
  constructor <;> decide

/-! ### Debounce helper lemmas -/

theorem startPlayback_trigger_fields (env : Env) (s : SysState) :
    (startPlayback env s).1.triggerState = s.triggerState ∧
    (startPlayback env s).1.lastTriggerState = s.lastTriggerState ∧
    (startPlayback env s).1.lastTriggerTime = s.lastTriggerTime := by
  rcases env with ⟨he, ho, bs⟩
  cases he <;> cases ho <;> simp [startPlayback]

theorem checkTrigger_within_window (env : Env) (now : ℕ) (reading : Bool) (s : SysState)
    (t0 : ℕ) (hs : t0 ≤ s.lastTriggerTime) (h1 : t0 ≤ now) (h2 : now ≤ t0 + debounceDelay) :
    (checkTrigger env now reading s).triggerState = s.triggerState ∧
    t0 ≤ (checkTrigger env now reading s).lastTriggerTime := by
  rcases s with ⟨p, f, ph, lt, ls, ts⟩
  simp only [checkTrigger, debounceDelay] at *
  by_cases hr : reading ≠ ls
  · rw [if_pos hr]
    rw [if_neg (by omega : ¬ (50 < now - now))]
    exact ⟨rfl, h1⟩
  · rw [if_neg hr]
    rw [if_neg (by omega : ¬ (50 < now - lt))]
    exact ⟨rfl, hs⟩

theorem checkTrigger_confirmed (env : Env) (now : ℕ) (r : Bool) (s : SysState)
    (h1 : s.triggerState = r) (h2 : s.lastTriggerState = r) :
    checkTrigger env now r s = { s with lastTriggerState := r } := by
  rcases s with ⟨p, f, ph, lt, ls, ts⟩
  cases h1
  cases h2
  simp [checkTrigger]

theorem checkTrigger_noflip (env : Env) (now : ℕ) (r : Bool) (s : SysState)
    (hls : s.lastTriggerState = r)
    (hw : ¬ debounceDelay < now - s.lastTriggerTime) :
    checkTrigger env now r s = { s with lastTriggerState := r } := by
  rcases s with ⟨p, f, ph, lt, ls, ts⟩
  cases hls
  simp only [SysState.lastTriggerTime] at hw
  simp [checkTrigger, hw]

theorem checkTrigger_flip (env : Env) (now : ℕ) (r : Bool) (s : SysState)
    (hls : s.lastTriggerState = r) (hts : s.triggerState ≠ r)
    (hw : debounceDelay < now - s.lastTriggerTime) :
    (checkTrigger env now r s).triggerState = r ∧
    (checkTrigger env now r s).lastTriggerState = r := by
  rcases s with ⟨p, f, ph, lt, ls, ts⟩
  cases hls
  simp only [SysState.lastTriggerTime] at hw
  simp only [SysState.triggerState] at hts
  have h2 : (ls ≠ ts) := Ne.symm hts
  simp only [checkTrigger, ne_eq, not_true_eq_false, if_false, ite_not, if_neg h2]
  rw [if_pos hw]
  refine ⟨?_, trivial⟩
  split
  · exact (startPlayback_trigger_fields env ⟨p, f, ph, lt, ls, ls⟩).1
  · rfl

theorem runCount_burst (env : Env) (t0 : ℕ) :
    ∀ (ps : List (ℕ × Bool)) (s : SysState),
      t0 ≤ s.lastTriggerTime →
      (∀ p ∈ ps, t0 ≤ p.1 ∧ p.1 ≤ t0 + debounceDelay) →
      (runCount env s ps).2 = 0 ∧ (runCount env s ps).1.triggerState = s.triggerState := by
  intro ps
  induction ps with
  | nil => intro s _ _; exact ⟨rfl, rfl⟩
  | cons p ps ih =>
    intro s hs hp
    obtain ⟨h1, h2⟩ := hp p (List.mem_cons_self _ _)
    obtain ⟨hts, hlt⟩ := checkTrigger_within_window env p.1 p.2 s t0 hs h1 h2
    obtain ⟨hc, hf⟩ := ih (checkTrigger env p.1 p.2 s) hlt
      (fun q hq => hp q (List.mem_cons_of_mem _ hq))
    simp only [runCount]
    rw [if_neg (by rw [hts]; exact fun h => h rfl)]
    exact ⟨by simpa using hc, by rw [hf, hts]⟩

theorem runCount_stable_confirmed (env : Env) (r : Bool) :
    ∀ (ps : List (ℕ × Bool)) (s : SysState),
      s.triggerState = r → s.lastTriggerState = r → (∀ p ∈ ps, p.2 = r) →
      (runCount env s ps).2 = 0 ∧ (runCount env s ps).1.triggerState = r := by
  intro ps
  induction ps with
  | nil => intro s h _ _; exact ⟨rfl, h⟩
  | cons p ps ih =>
    intro s h1 h2 hr
    have hpr : p.2 = r := hr p (List.mem_cons_self _ _)
    have hstep : checkTrigger env p.1 p.2 s = { s with lastTriggerState := r } := by
      rw [hpr]; exact checkTrigger_confirmed env p.1 r s h1 h2
    obtain ⟨hc, hf⟩ := ih { s with lastTriggerState := r } h1 rfl
      (fun q hq => hr q (List.mem_cons_of_mem _ hq))
    simp only [runCount, hstep]
    rw [if_neg (by simp)]
    exact ⟨by simpa using hc, hf⟩

theorem runCount_stable_one (env : Env) (r : Bool) :
    ∀ (ps : List (ℕ × Bool)) (s : SysState),
      s.lastTriggerState = r → s.triggerState ≠ r →
      (∀ p ∈ ps, p.2 = r) →
      (∃ p ∈ ps, debounceDelay < p.1 - s.lastTriggerTime) →
      (runCount env s ps).2 = 1 ∧ (runCount env s ps).1.triggerState = r := by
  intro ps
  induction ps with
  | nil =>
    rintro s _ _ _ ⟨p, hp, -⟩
    exact absurd hp (List.not_mem_nil p)
  | cons p ps ih =>
    intro s hls hts hr hex
    have hpr : p.2 = r := hr p (List.mem_cons_self _ _)
    by_cases hw : debounceDelay < p.1 - s.lastTriggerTime
    · obtain ⟨ht, hl⟩ : (checkTrigger env p.1 p.2 s).triggerState = r ∧
          (checkTrigger env p.1 p.2 s).lastTriggerState = r := by
        rw [hpr]
        exact checkTrigger_flip env p.1 r s hls hts hw
      obtain ⟨hc, hf⟩ := runCount_stable_confirmed env r ps (checkTrigger env p.1 p.2 s) ht hl
        (fun q hq => hr q (List.mem_cons_of_mem _ hq))
      simp only [runCount]
      rw [if_pos (by rw [ht]; exact Ne.symm hts)]
      exact ⟨by simpa using hc, hf⟩
    · have hstep : checkTrigger env p.1 p.2 s = { s with lastTriggerState := r } := by
        rw [hpr]
        exact checkTrigger_noflip env p.1 r s hls hw
      obtain ⟨q, hq, hqw⟩ := hex
      rcases List.mem_cons.mp hq with rfl | hq'
      · exact absurd hqw hw
      · obtain ⟨hc, hf⟩ := ih { s with lastTriggerState := r } rfl hts
          (fun q' hq'' => hr q' (List.mem_cons_of_mem _ hq'')) ⟨q, hq', hqw⟩
        simp only [runCount, hstep]
        rw [if_neg (by simp)]
        exact ⟨by simpa using hc, hf⟩

/-! ### C4: debounce behaviour of the trigger input -/

/-- **C4**: a burst of raw-level polls lying entirely inside the 50 ms
debounce window (anchored at the last recorded raw change) produces zero
transitions of the confirmed level, and a raw level that differs from
the confirmed level and stays stable, with some poll arriving after the
window has elapsed, produces exactly one confirmed transition. -/
theorem debounce_spec (env : Env) (s : SysState) (ps : List (ℕ × Bool)) :
    ((∀ p ∈ ps, s.lastTriggerTime ≤ p.1 ∧ p.1 ≤ s.lastTriggerTime + debounceDelay) →
      (runCount env s ps).2 = 0) ∧
    (∀ r, s.lastTriggerState = r → s.triggerState ≠ r → (∀ p ∈ ps, p.2 = r) →
      (∃ p ∈ ps, debounceDelay < p.1 - s.lastTriggerTime) →
      (runCount env s ps).2 = 1 ∧ (runCount env s ps).1.triggerState = r) :=
  ⟨fun h => (runCount_burst env s.lastTriggerTime ps s le_rfl h).1,
   fun r h1 h2 h3 h4 => runCount_stable_one env r ps s h1 h2 h3 h4⟩

/-- Witness for `debounce_spec`: a three-toggle burst inside the window
yields zero transitions; a stable high level with a poll past the
window yields exactly one. -/
theorem debounce_spec_witness :
    (runCount ⟨false, false, []⟩ ⟨false, none, 0, 100, false, false⟩
      [(110, true), (120, false), (130, true)]).2 = 0 ∧
    (runCount ⟨false, false, []⟩ ⟨false, none, 0, 100, true, false⟩
      [(160, true), (170, true)]).2 = 1 ∧
    (runCount ⟨false, false, []⟩ ⟨false, none, 0, 100, true, false⟩
      [(160, true), (170, true)]).1.triggerState = true := by
  refine ⟨?_, ?_⟩
  · exact (debounce_spec ⟨false, false, []⟩ ⟨false, none, 0, 100, false, false⟩
      [(110, true), (120, false), (130, true)]).1 (by decide)
  · exact (debounce_spec ⟨false, false, []⟩ ⟨false, none, 0, 100, true, false⟩
      [(160, true), (170, true)]).2 true rfl (by decide) (by decide)
      ⟨(160, true), by decide, by decide⟩

end SoundProjector
